import Mathlib

/-!
Verification of the metadata-normalization core of the Check-Meta application
(src/src/App.tsx).  The pure functions formatBytes, formatDuration,
getResolutionLabel and getDetailedCodec, and the pure record-assembly part of
analyzeVideo, are embedded shallowly: JavaScript numbers are modelled over the
rationals and the integers, undefined string fields as Option String, and the
NoMediaTrack failure of the assembler as an Option result.
-/

set_option linter.unusedVariables false

namespace CheckMeta

/-- Truthiness of a possibly-undefined JavaScript string: undefined and the
empty string are falsy, every other string is truthy. -/
def jsTruthy : Option String → Bool
  | none => false
  | some s => s != ""

/-- Embedding of the JavaScript expression a || b on possibly-undefined
strings: the left operand when truthy, the right operand otherwise. -/
def jsOr (a b : Option String) : Option String := if jsTruthy a then a else b

/-- Embedding of the pattern a || b || defaultLiteral that selects the first
truthy string of a chain and otherwise a default. -/
def jsSel (c : Option String) (d : String) : String := if jsTruthy c then c.getD "" else d

/-- Numeric value of a decimal digit character, none for other characters. -/
def digitVal (c : Char) : Option ℕ :=
  if c.isDigit then some (c.toNat - 48) else none

/-- Longest leading run of decimal digits of a character list, paired with the
remaining characters. -/
def takeDigits : List Char → List ℕ × List Char
  | [] => ([], [])
  | c :: cs =>
    match digitVal c with
    | some d =>
      let r := takeDigits cs
      (d :: r.1, r.2)
    | none => ([], c :: cs)

/-- Natural number denoted by a list of decimal digits, most significant
first. -/
def natOfDigits (ds : List ℕ) : ℕ := ds.foldl (fun a d => 10 * a + d) 0

/-- Model of the JavaScript parseInt builtin at radix 10 on the strings this
application feeds it: an optional sign followed by the longest run of leading
digits; none models NaN.  Leading whitespace and hexadecimal markers never
occur in the probed fields and are not modelled. -/
def parseIntJs (s : String) : Option ℤ :=
  match s.data with
  | '-' :: cs =>
    let r := takeDigits cs
    if r.1 = [] then none else some (-(natOfDigits r.1 : ℤ))
  | '+' :: cs =>
    let r := takeDigits cs
    if r.1 = [] then none else some (natOfDigits r.1 : ℤ)
  | cs =>
    let r := takeDigits cs
    if r.1 = [] then none else some (natOfDigits r.1 : ℤ)

/-- Model of the JavaScript parseFloat builtin on the strings this application
feeds it: an optional sign, an integer digit run and an optional fractional
digit run; none models NaN.  Exponent forms and leading whitespace never
occur in the probed fields and are not modelled; floats are idealized as
rationals. -/
def parseFloatJs (s : String) : Option ℚ :=
  let core : List Char → Option ℚ := fun cs =>
    let ip := takeDigits cs
    let fp :=
      match ip.2 with
      | '.' :: cs2 => takeDigits cs2
      | _ => ([], ip.2)
    if ip.1 = [] ∧ fp.1 = [] then none
    else some ((natOfDigits ip.1 : ℚ) + (natOfDigits fp.1 : ℚ) / (10 : ℚ) ^ fp.1.length)
  match s.data with
  | '-' :: cs => (core cs).map (fun q => -q)
  | '+' :: cs => core cs
  | cs => core cs

/-- Truncation toward zero, as the JavaScript % operator uses for its implicit
division. -/
def jsTrunc (q : ℚ) : ℤ := if 0 ≤ q then ⌊q⌋ else -⌊-q⌋

/-- Model of the JavaScript % operator on numbers: the remainder with the sign
of the dividend. -/
def jsFmod (x y : ℚ) : ℚ := x - y * (jsTrunc (x / y) : ℚ)

/-- Model of Number.prototype.toFixed with two fraction digits: round to the
nearest hundredth, ties toward positive infinity, and render with exactly two
fraction digits. -/
def jsToFixed2 (q : ℚ) : String :=
  let n : ℤ := ⌊q * 100 + 1 / 2⌋
  let sign := if n < 0 then "-" else ""
  let a := n.natAbs
  sign ++ toString (a / 100) ++ "." ++
    (if a % 100 < 10 then "0" ++ toString (a % 100) else toString (a % 100))

/-- Model of the parseFloat round trip that formatBytes applies to the
toFixed output: trailing zeros of the fraction are dropped, and a then-bare
trailing dot is dropped as well. -/
def trimFixed (s : String) : String :=
  let r := s.data.reverse.dropWhile (fun c => c == '0')
  let r2 :=
    match r with
    | '.' :: t => t
    | _ => r
  String.mk r2.reverse

/-- The unit array of formatBytes (line 25 of src/src/App.tsx). -/
def sizes : List String := ["Bytes", "KB", "MB", "GB", "TB"]

/-- Indexing the unit array as JavaScript does: past the end the read yields
undefined, which string concatenation renders as the literal text undefined. -/
def sizesGet (i : ℕ) : String := (sizes.get? i).getD "undefined"

/-- Embedding of formatBytes (lines 21-28).  The floating-point expression
Math.floor(Math.log(bytes) / Math.log 1024) is idealized as the exact
base-1024 logarithm; the decimals parameter is never overridden at any call
site and is embedded at its default of two. -/
def formatBytes (bytes : ℕ) : String :=
  if bytes = 0 then "0 Bytes"
  else
    let i := Nat.log 1024 bytes
    trimFixed (jsToFixed2 ((bytes : ℚ) / (1024 : ℚ) ^ i)) ++ " " ++ sizesGet i

/-- A JavaScript duration value as it reaches formatDuration: either a string
field read from a track or a number produced by the Math.max fallback. -/
inductive JsDur where
  | str (s : String)
  | num (q : ℚ)
deriving DecidableEq

/-- Truthiness of a duration value: the empty string and zero are falsy. -/
def JsDur.truthy : JsDur → Bool
  | .str s => s != ""
  | .num q => q != 0

/-- The parseFloat coercion formatDuration applies to its argument: a string
is parsed, a number passes through. -/
def JsDur.toNum : JsDur → Option ℚ
  | .str s => parseFloatJs s
  | .num q => some q

/-- Embedding of lines 50-58 of formatDuration: the decomposition of the
totalSeconds value into hours, minutes and seconds with the JS float
operations made explicit, and the conditional padding of the rendered
pieces. -/
def formatDurationRender (totalSeconds : ℤ) : String :=
  let seconds : ℤ := Int.tmod totalSeconds 60
  let minutes : ℤ := ⌊jsFmod ((totalSeconds : ℚ) / 60) 60⌋
  let hours : ℤ := ⌊(totalSeconds : ℚ) / 3600⌋
  let h := if 0 < hours then toString hours ++ ":" else ""
  let m :=
    if 0 < hours then
      (if minutes < 10 then "0" ++ toString minutes ++ ":" else toString minutes ++ ":")
    else toString minutes ++ ":"
  let s := if seconds < 10 then "0" ++ toString seconds else toString seconds
  h ++ m ++ s

/-- Embedding of formatDuration (lines 30-59).  The split of the preformatted
string on the dot keeps the part before the first dot; the arithmetic on JS
numbers is carried out over the rationals with explicit floors. -/
def formatDuration (value : JsDur) (durationStr3 : Option String) : String :=
  if jsTruthy durationStr3 ∧ (durationStr3.getD "").data.contains ':' then
    String.mk ((durationStr3.getD "").data.takeWhile (fun c => c != '.'))
  else if !value.truthy then "不明"
  else
    match value.toNum with
    | none => "不明"
    | some num =>
      if num ≤ 0 then "不明"
      else
        let ts0 : ℤ := ⌊num / 1000⌋
        formatDurationRender (if ts0 = 0 ∧ 0 < num then ⌊num⌋ else ts0)

/-- Embedding of getResolutionLabel (lines 61-68). -/
def getResolutionLabel (width height : ℤ) : String :=
  let m := max width height
  if 3840 ≤ m then "4K"
  else if 2560 ≤ m then "2K"
  else if 1920 ≤ m then "FullHD"
  else if 1280 ≤ m then "HD"
  else "SD"

/-- Boolean test that the first character list is an initial segment of the
second. -/
def startsWithChars : List Char → List Char → Bool
  | [], _ => true
  | _ :: _, [] => false
  | a :: as, b :: bs => a == b && startsWithChars as bs

/-- Boolean test that the first character list occurs contiguously inside the
second. -/
def inclChars (sub : List Char) : List Char → Bool
  | [] => sub.isEmpty
  | c :: cs => startsWithChars sub (c :: cs) || inclChars sub cs

/-- Model of the JavaScript String.prototype.includes substring test. -/
def strIncludes (s sub : String) : Bool := inclChars sub.data s.data

/-- A probed track: the type discriminator (the JSON field named with a
leading at-sign) and the metadata fields the application reads.  Absent
fields are none; mediainfo.js serializes the values of the remaining fields
as strings. -/
structure RawTrack where
  typ : String := ""
  Width : Option String := none
  Height : Option String := none
  Duration : Option String := none
  Duration_String3 : Option String := none
  BitRate : Option String := none
  BitRate_Mode : Option String := none
  OverallBitRate : Option String := none
  OverallBitRate_Mode : Option String := none
  FrameRate : Option String := none
  FrameRate_Nominal : Option String := none
  Format : Option String := none
  Format_Information : Option String := none
  Format_Profile : Option String := none
  CodecID : Option String := none
deriving DecidableEq

/-- Embedding of line 105 of getDetailedCodec: the composed name when
non-empty, else the raw codec identifier when truthy, else the unknown
sentinel. -/
def codecFallback (result : String) (codecID : Option String) : String :=
  if result ≠ "" then result
  else if jsTruthy codecID then codecID.getD ""
  else "不明"

/-- Embedding of getDetailedCodec (lines 70-106); none models an absent
track. -/
def getDetailedCodec : Option RawTrack → String
  | none => "不明"
  | some track =>
    let format := track.Format.getD ""
    let info := track.Format_Information.getD ""
    let profile := track.Format_Profile.getD ""
    let isoName0 := if info ≠ "" then info else format
    let isoName1 :=
      if format = "AVC" then "Advanced Video Coding"
      else if format = "HEVC" then "High Efficiency Video Coding"
      else if format = "MPEG-4 Visual" then "MPEG-4 Part 2"
      else isoName0
    let ituName1 :=
      if format = "AVC" then "H.264"
      else if format = "HEVC" then "H.265"
      else if format = "MPEG-4 Visual" then "Visual"
      else format
    let isoName := if format = "AAC" then "Advanced Audio Coding" else isoName1
    let ituName := if format = "AAC" then "MPEG-4 AAC" else ituName1
    let result0 :=
      if ituName ≠ "" ∧ ituName ≠ isoName then isoName ++ "（" ++ ituName ++ "）"
      else isoName
    let result :=
      if profile ≠ "" ∧ profile ≠ "Base" ∧ profile ≠ "Main" ∧ strIncludes result0 profile = false
      then result0 ++ " [" ++ profile ++ "]"
      else result0
    codecFallback result track.CodecID

/-- The track container of a probe result, mirroring result.media.track. -/
structure MediaData where
  track : List RawTrack
deriving DecidableEq

/-- A probe result as the application consumes it; media may be absent. -/
structure ProbeResult where
  media : Option MediaData
deriving DecidableEq

/-- Embedding of result.media?.track.find for a given type tag
(lines 133-135): the whole optional chain yields none when media is absent. -/
def findType (p : ProbeResult) (ty : String) : Option RawTrack :=
  match p.media with
  | none => none
  | some m => m.track.find? (fun t => t.typ == ty)

/-- The first General track of the probe. -/
def generalOf (p : ProbeResult) : Option RawTrack := findType p "General"

/-- The first Video track of the probe. -/
def videoOf (p : ProbeResult) : Option RawTrack := findType p "Video"

/-- The first Audio track of the probe. -/
def audioOf (p : ProbeResult) : Option RawTrack := findType p "Audio"

/-- Embedding of line 143: the preformatted duration string selected by
truthiness with priority General, then Video, then Audio. -/
def ds3Of (p : ProbeResult) : Option String :=
  jsOr ((generalOf p).bind RawTrack.Duration_String3)
    (jsOr ((videoOf p).bind RawTrack.Duration_String3)
      ((audioOf p).bind RawTrack.Duration_String3))

/-- Embedding of lines 145-147: parseFloat over the Duration field of every
track of the probe, keeping the values that are numbers greater than zero. -/
def durationsOf (p : ProbeResult) : List ℚ :=
  (((p.media.map MediaData.track).getD []).filterMap
    (fun t =>
      match t.Duration with
      | none => none
      | some s => parseFloatJs s)).filter (fun d => 0 < d)

/-- Model of Math.max over a spread list, as applied to a nonempty list. -/
def maxQ : List ℚ → ℚ
  | [] => 0
  | d :: ds => ds.foldl max d

/-- Embedding of line 149: the raw duration chain General, Video, Audio by
truthiness, with the positive maximum over all tracks (or zero) as the final
fallback. -/
def rawDurationOf (p : ProbeResult) : JsDur :=
  let chain := jsOr ((generalOf p).bind RawTrack.Duration)
    (jsOr ((videoOf p).bind RawTrack.Duration) ((audioOf p).bind RawTrack.Duration))
  if jsTruthy chain then JsDur.str (chain.getD "")
  else JsDur.num (if durationsOf p ≠ [] then maxQ (durationsOf p) else 0)

/-- The duration field of the assembled record (line 160). -/
def durationOf (p : ProbeResult) : String := formatDuration (rawDurationOf p) (ds3Of p)

/-- Embedding of line 138: zero without a Video track, otherwise parseInt of
the Width field; none models NaN. -/
def widthOf (p : ProbeResult) : Option ℤ :=
  match videoOf p with
  | none => some 0
  | some v =>
    match v.Width with
    | none => none
    | some s => parseIntJs s

/-- Embedding of line 139 for the Height field. -/
def heightOf (p : ProbeResult) : Option ℤ :=
  match videoOf p with
  | none => some 0
  | some v =>
    match v.Height with
    | none => none
    | some s => parseIntJs s

/-- Embedding of line 155: the resolution string, guarded by the truthiness
of both parsed dimensions. -/
def resolutionOf (p : ProbeResult) : String :=
  match widthOf p, heightOf p with
  | some w, some h => if w ≠ 0 ∧ h ≠ 0 then toString w ++ " x " ++ toString h else "不明"
  | _, _ => "不明"

/-- Embedding of line 156: the resolution class, guarded like the resolution
string. -/
def resolutionLabelOf (p : ProbeResult) : String :=
  match widthOf p, heightOf p with
  | some w, some h => if w ≠ 0 ∧ h ≠ 0 then getResolutionLabel w h else "不明"
  | _, _ => "不明"

/-- The megabit rendering of a parsed bit rate; none models NaN, which
toFixed renders as the literal text NaN. -/
def mbpsString (n : Option ℤ) : String :=
  match n with
  | none => "NaN"
  | some n => jsToFixed2 ((n : ℚ) / 1000000)

/-- Embedding of line 157: the Video bit rate when truthy, else the overall
bit rate of the General track, else the unknown sentinel. -/
def bitRateOf (p : ProbeResult) : String :=
  if jsTruthy ((videoOf p).bind RawTrack.BitRate) then
    mbpsString (parseIntJs (((videoOf p).bind RawTrack.BitRate).getD "")) ++ " Mbps"
  else if jsTruthy ((generalOf p).bind RawTrack.OverallBitRate) then
    mbpsString (parseIntJs (((generalOf p).bind RawTrack.OverallBitRate).getD "")) ++ " Mbps"
  else "不明"

/-- Embedding of line 158: the bit rate mode chain. -/
def bitRateModeOf (p : ProbeResult) : String :=
  jsSel (jsOr ((videoOf p).bind RawTrack.BitRate_Mode)
    ((generalOf p).bind RawTrack.OverallBitRate_Mode)) "不明"

/-- Embedding of line 159: nullish coalescing over the frame rate fields, so
a present empty string is kept, and the unit suffix is appended whenever a
Video track exists. -/
def frameRateOf (p : ProbeResult) : String :=
  match videoOf p with
  | none => "不明"
  | some v =>
    (match v.FrameRate with
      | some s => s
      | none => v.FrameRate_Nominal.getD "不明") ++ " fps"

/-- Embedding of line 161: the container format chain. -/
def containerOf (p : ProbeResult) : String :=
  jsSel ((generalOf p).bind RawTrack.Format) "不明"

/-- The assembled record (the VideoMetadata interface, lines 6-19). -/
structure VideoMetadata where
  name : String
  updatedDate : String
  size : String
  resolution : String
  resolutionLabel : String
  bitRate : String
  bitRateMode : String
  frameRate : String
  duration : String
  container : String
  videoCodec : String
  audioCodec : String
deriving DecidableEq

/-- Pure core of analyzeVideo (lines 133-168): the record assembly, with none
modelling the NoMediaTrack error path.  The name and the formatted
last-modified date are pass-through inputs from the file object; the byte
count feeds formatBytes. -/
def analyzeVideo (name updatedDate : String) (fileSize : ℕ) (p : ProbeResult) :
    Option VideoMetadata :=
  if (videoOf p).isSome ∨ (generalOf p).isSome then
    some
      { name := name
        updatedDate := updatedDate
        size := formatBytes fileSize
        resolution := resolutionOf p
        resolutionLabel := resolutionLabelOf p
        bitRate := bitRateOf p
        bitRateMode := bitRateModeOf p
        frameRate := frameRateOf p
        duration := durationOf p
        container := containerOf p
        videoCodec := getDetailedCodec (videoOf p)
        audioCodec := getDetailedCodec (audioOf p) }
  else none

/-- Two-digit zero padding of an integer below one hundred, as the claims word
it. -/
def pad2 (n : ℤ) : String := if n < 10 then "0" ++ toString n else toString n

/-- Rendering of a total-seconds count as claim C4 words it: H:MM:SS with
zero-padded minutes when the hour count is positive, else M:SS with unpadded
minutes; seconds always zero-padded to two digits. -/
def specRenderHMS (ts : ℤ) : String :=
  if 0 < ts / 3600 then
    toString (ts / 3600) ++ ":" ++ pad2 (ts / 60 % 60) ++ ":" ++ pad2 (ts % 60)
  else toString (ts / 60 % 60) ++ ":" ++ pad2 (ts % 60)

/-- Raw-duration normalization as claim C4 words it: a value that is not a
positive number gives the unknown sentinel; otherwise the value is floored as
milliseconds, a zero floor of a positive value reinterprets the value as whole
seconds, and the total is rendered by specRenderHMS. -/
def specNormalizeDuration (q : ℚ) : String :=
  if q ≤ 0 then "不明"
  else
    let t : ℤ := ⌊q / 1000⌋
    specRenderHMS (if t = 0 then ⌊q⌋ else t)

/-- Codec display rule as claim C5 words it: the long name alone when the two
canonical names coincide, else the long name with the short name in full-width
parentheses, and the profile appended in brackets exactly when it is truthy,
neither Base nor Main, and not already a substring of the composed name. -/
def specCodecDisplay (longName shortName profile : String) : String :=
  let base := if longName = shortName then longName else longName ++ "（" ++ shortName ++ "）"
  if profile ≠ "" ∧ profile ≠ "Base" ∧ profile ≠ "Main" ∧ strIncludes base profile = false then
    base ++ " [" ++ profile ++ "]"
  else base

/-- A probe whose only track is an Audio track. -/
def probeAudioOnly : ProbeResult := ⟨some ⟨[{ typ := "Audio" }]⟩⟩

/-- A probe whose only track is a bare General track. -/
def probeGeneralOnly : ProbeResult := ⟨some ⟨[{ typ := "General" }]⟩⟩

/-- The record assembled from probeGeneralOnly for a file named a.mp4 of size
zero, modified at the stand-in date x. -/
def mdGeneralOnly : VideoMetadata :=
  { name := "a.mp4"
    updatedDate := "x"
    size := "0 Bytes"
    resolution := "不明"
    resolutionLabel := "不明"
    bitRate := "不明"
    bitRateMode := "不明"
    frameRate := "不明"
    duration := "不明"
    container := "不明"
    videoCodec := "不明"
    audioCodec := "不明" }

/-- A probe whose General track carries a preformatted duration string that
contains a colon but starts with the fractional separator. -/
def probeDotDs3 : ProbeResult :=
  ⟨some ⟨[{ typ := "General", Duration_String3 := some ".0:0" }]⟩⟩

/-- A probe where the General track carries a truthy preformatted duration
string without a colon while the Video track carries a colon-containing one
alongside a raw duration of sixty seconds. -/
def probeShadowDs3 : ProbeResult :=
  ⟨some ⟨[{ typ := "General", Duration_String3 := some "about" },
          { typ := "Video", Duration_String3 := some "00:01:00", Duration := some "60.000" }]⟩⟩

/-- A probe whose Video track reports a 3840 by 2160 picture. -/
def probe4K : ProbeResult :=
  ⟨some ⟨[{ typ := "Video", Width := some "3840", Height := some "2160" }]⟩⟩

/-- A probe whose Video track reports a 1280 by 720 picture. -/
def probeHD : ProbeResult :=
  ⟨some ⟨[{ typ := "Video", Width := some "1280", Height := some "720" }]⟩⟩

/-- A probe whose Video track reports zero width and height. -/
def probeZeroRes : ProbeResult :=
  ⟨some ⟨[{ typ := "Video", Width := some "0", Height := some "0" }]⟩⟩

/-- A probe whose General track carries a canonical preformatted duration
string with a fractional part. -/
def probeDs3Canonical : ProbeResult :=
  ⟨some ⟨[{ typ := "General", Duration_String3 := some "00:02:15.500" }]⟩⟩

/-- A probe whose only track is a Video track with no fields at all. -/
def probeVideoBare : ProbeResult := ⟨some ⟨[{ typ := "Video" }]⟩⟩

/-! Helper lemmas shared by the claim theorems. -/

theorem length_eq_zero_iff (s : String) : s.length = 0 ↔ s = "" := by
  constructor
  · intro h
    cases s with
    | mk l =>
      cases l with
      | nil => rfl
      | cons c cs => simp [String.length] at h
  · intro h
    rw [h]
    rfl

theorem append_ne_empty_right (a b : String) (hb : b ≠ "") : a ++ b ≠ "" := by
  intro h
  apply hb
  have hl := congrArg String.length h
  rw [String.length_append] at hl
  have h0 : ("" : String).length = 0 := rfl
  rw [← length_eq_zero_iff]
  omega

theorem append_ne_empty_left (a b : String) (ha : a ≠ "") : a ++ b ≠ "" := by
  intro h
  apply ha
  have hl := congrArg String.length h
  rw [String.length_append] at hl
  have h0 : ("" : String).length = 0 := rfl
  rw [← length_eq_zero_iff]
  omega

theorem floor_cast_div_nat (n : ℤ) (d : ℕ) : ⌊(n : ℚ) / (d : ℚ)⌋ = n / (d : ℤ) :=
  Rat.floor_intCast_div_natCast n d

theorem floor_cast_div60 (n : ℤ) : ⌊(n : ℚ) / 60⌋ = n / 60 := by
  have h := floor_cast_div_nat n 60
  norm_num at h
  exact h

theorem floor_cast_div3600 (n : ℤ) : ⌊(n : ℚ) / 3600⌋ = n / 3600 := by
  have h := floor_cast_div_nat n 3600
  norm_num at h
  exact h

theorem tmod_sixty_of_nonneg (a : ℤ) (h : 0 ≤ a) : Int.tmod a 60 = a % 60 :=
  Int.tmod_eq_emod h (by norm_num)

theorem jsTrunc_of_nonneg (q : ℚ) (h : 0 ≤ q) : jsTrunc q = ⌊q⌋ := by
  unfold jsTrunc
  rw [if_pos h]

theorem floor_jsFmod_sixty (ts : ℤ) (h : 0 ≤ ts) :
    ⌊jsFmod ((ts : ℚ) / 60) 60⌋ = ts / 60 % 60 := by
  unfold jsFmod
  have h36 : ((ts : ℚ) / 60) / 60 = (ts : ℚ) / 3600 := by ring
  rw [h36, jsTrunc_of_nonneg _ (by positivity), floor_cast_div3600]
  rw [show (60 : ℚ) * ((ts / 3600 : ℤ) : ℚ) = (((60 * (ts / 3600) : ℤ)) : ℚ) by push_cast; ring]
  rw [Int.floor_sub_int]
  rw [floor_cast_div60]
  omega

theorem render_spec (ts : ℤ) (h : 0 ≤ ts) : formatDurationRender ts = specRenderHMS ts := by
  simp only [formatDurationRender, specRenderHMS, pad2]
  rw [floor_cast_div3600, floor_jsFmod_sixty ts h, tmod_sixty_of_nonneg ts h]
  split_ifs <;> simp [String.append_assoc, String.empty_append]

theorem formatDuration_spec (v : JsDur) (q : ℚ) (ds3 : Option String)
    (hds : ¬(jsTruthy ds3 = true ∧ ((ds3.getD "").data.contains ':') = true))
    (htr : v.truthy = true) (hnum : v.toNum = some q) :
    formatDuration v ds3 = specNormalizeDuration q := by
  unfold formatDuration
  rw [if_neg hds, htr]
  simp only [Bool.not_true]
  rw [if_neg (by decide : ¬((false : Bool) = true))]
  rw [hnum]
  by_cases hq : q ≤ 0
  · simp only [specNormalizeDuration]
    rw [if_pos hq, if_pos hq]
  · push_neg at hq
    simp only [specNormalizeDuration]
    rw [if_neg (not_le.mpr hq), if_neg (not_le.mpr hq)]
    simp only [hq, and_true]
    by_cases h0 : ⌊q / 1000⌋ = 0
    · rw [if_pos h0]
      exact render_spec _ (Int.floor_nonneg.mpr hq.le)
    · rw [if_neg h0]
      exact render_spec _ (Int.floor_nonneg.mpr (by positivity))

theorem floorQ (q : ℚ) (z : ℤ) (h1 : (z : ℚ) ≤ q) (h2 : q < z + 1) : ⌊q⌋ = z := by
  rw [Int.floor_eq_iff]
  exact ⟨h1, h2⟩

theorem specNormalizeDuration_eval (q : ℚ) (t u : ℤ) (hq : 0 < q) (ht : ⌊q / 1000⌋ = t)
    (htu : (if t = 0 then ⌊q⌋ else t) = u) : specNormalizeDuration q = specRenderHMS u := by
  simp only [specNormalizeDuration]
  rw [if_neg (not_le.mpr hq), ht, htu]

theorem num_truthy (q : ℚ) (h : q ≠ 0) : (JsDur.num q).truthy = true := by
  simp [JsDur.truthy, bne_iff_ne, h]

theorem str_truthy (s : String) (h : s ≠ "") : (JsDur.str s).truthy = true := by
  simp [JsDur.truthy, bne_iff_ne, h]

theorem ds3_none_not_taken :
    ¬(jsTruthy (none : Option String) = true ∧
      (((none : Option String)).getD "").data.contains ':' = true) := by
  simp [jsTruthy]

theorem formatDuration_ds3 (v : JsDur) (s : String) (hs : s ≠ "") (hc : s.data.contains ':' = true) :
    formatDuration v (some s) = String.mk (s.data.takeWhile (fun c => c != '.')) := by
  unfold formatDuration
  rw [if_pos ⟨by simp [jsTruthy, bne_iff_ne, hs], by simpa using hc⟩]
  simp

/-- C4: a selected raw value that is not a usable positive number yields the
unknown sentinel; otherwise the value is floored as milliseconds, a zero floor
of a positive original reinterprets it as whole seconds, and the total is
rendered H:MM:SS with zero-padded minutes when hours are positive, else M:SS
with unpadded minutes, seconds always two digits; in particular 135000 gives
2:15, 45 gives 0:45 and 7400000 gives 2:03:20. -/
theorem claim_C4 :
    (∀ q : ℚ, formatDuration (.num q) none = specNormalizeDuration q)
    ∧ (∀ s : String, parseFloatJs s = none → formatDuration (.str s) none = "不明")
    ∧ (∀ s : String, ∀ q : ℚ, parseFloatJs s = some q →
        formatDuration (.str s) none = specNormalizeDuration q)
    ∧ formatDuration (.num 135000) none = "2:15"
    ∧ formatDuration (.num 45) none = "0:45"
    ∧ formatDuration (.num 7400000) none = "2:03:20" := by
  have hnum : ∀ q : ℚ, formatDuration (.num q) none = specNormalizeDuration q := by
    intro q
    by_cases hq0 : q = 0
    · subst hq0
      have h1 : formatDuration (.num 0) none = "不明" := by decide
      have h2 : specNormalizeDuration 0 = "不明" := by
        simp [specNormalizeDuration]
      rw [h1, h2]
    · exact formatDuration_spec _ q none ds3_none_not_taken (num_truthy q hq0) rfl
  refine ⟨hnum, ?_, ?_, ?_, ?_, ?_⟩
  · intro s h
    by_cases hs : s = ""
    · subst hs
      decide
    · unfold formatDuration
      rw [if_neg ds3_none_not_taken, str_truthy s hs]
      simp only [Bool.not_true]
      rw [if_neg (by decide : ¬((false : Bool) = true))]
      simp only [JsDur.toNum]
      rw [h]
  · intro s q h
    have hs : s ≠ "" := by
      intro he
      rw [he] at h
      exact Option.noConfusion ((rfl : parseFloatJs "" = none) ▸ h)
    exact formatDuration_spec _ q none ds3_none_not_taken (str_truthy s hs)
      (by simp only [JsDur.toNum]; exact h)
  · rw [hnum 135000,
      specNormalizeDuration_eval 135000 135 135 (by norm_num)
        (floorQ _ _ (by norm_num) (by norm_num)) (by norm_num)]
    decide
  · rw [hnum 45,
      specNormalizeDuration_eval 45 0 45 (by norm_num)
        (floorQ _ _ (by norm_num) (by norm_num))
        (by rw [if_pos rfl]; exact floorQ _ _ (by norm_num) (by norm_num))]
    decide
  · rw [hnum 7400000,
      specNormalizeDuration_eval 7400000 7400 7400 (by norm_num)
        (floorQ _ _ (by norm_num) (by norm_num)) (by norm_num)]
    decide

theorem jsOr_truthy (a b : Option String) (h : jsTruthy a = true) : jsOr a b = a := by
  unfold jsOr
  rw [if_pos h]

theorem jsOr_falsy (a b : Option String) (h : jsTruthy a = false) : jsOr a b = b := by
  unfold jsOr
  rw [h]
  simp

theorem parseFloat_sixty_aux : parseFloatJs "60.000" =
    some (((natOfDigits [6, 0] : ℕ) : ℚ) +
      ((natOfDigits [0, 0, 0] : ℕ) : ℚ) / (10 : ℚ) ^ (3 : ℕ)) := rfl

theorem parseFloat_sixty : parseFloatJs "60.000" = some 60 := by
  rw [parseFloat_sixty_aux]
  norm_num [natOfDigits]

/-- C4 witness: a parse failure and a concrete parsed duration, through the
theorem itself. -/
theorem claim_C4_witness :
    parseFloatJs "abc" = none ∧ formatDuration (.str "abc") none = "不明"
    ∧ parseFloatJs "60.000" = some 60
    ∧ formatDuration (.str "60.000") none = specNormalizeDuration 60 :=
  ⟨rfl, claim_C4.2.1 "abc" rfl, parseFloat_sixty,
    claim_C4.2.2.1 "60.000" 60 parseFloat_sixty⟩

/-- C3 (amended): the preformatted duration string is selected by truthiness
alone with priority General, Video, Audio; the selected string is truncated at
the first dot only when it contains a colon, and otherwise — even when a
lower-priority track carries a colon-containing string — the raw numeric chain
General, else Video, else Audio, else the positive maximum over all tracks
(else zero) is selected and normalized numerically. -/
theorem claim_C3 :
    (∀ p : ProbeResult, ∀ s : String, ds3Of p = some s → s ≠ "" → s.data.contains ':' = true →
        durationOf p = String.mk (s.data.takeWhile (fun c => c != '.')))
    ∧ (∀ p : ProbeResult, ∀ d : String,
        (generalOf p).bind RawTrack.Duration = some d → d ≠ "" → rawDurationOf p = .str d)
    ∧ (∀ p : ProbeResult, ∀ d : String,
        jsTruthy ((generalOf p).bind RawTrack.Duration) = false →
        (videoOf p).bind RawTrack.Duration = some d → d ≠ "" → rawDurationOf p = .str d)
    ∧ (∀ p : ProbeResult, ∀ d : String,
        jsTruthy ((generalOf p).bind RawTrack.Duration) = false →
        jsTruthy ((videoOf p).bind RawTrack.Duration) = false →
        (audioOf p).bind RawTrack.Duration = some d → d ≠ "" → rawDurationOf p = .str d)
    ∧ (∀ p : ProbeResult,
        jsTruthy ((generalOf p).bind RawTrack.Duration) = false →
        jsTruthy ((videoOf p).bind RawTrack.Duration) = false →
        jsTruthy ((audioOf p).bind RawTrack.Duration) = false →
        rawDurationOf p = .num (if durationsOf p ≠ [] then maxQ (durationsOf p) else 0))
    ∧ (∀ p : ProbeResult, ∀ q : ℚ,
        ¬(jsTruthy (ds3Of p) = true ∧ ((ds3Of p).getD "").data.contains ':' = true) →
        (rawDurationOf p).truthy = true → (rawDurationOf p).toNum = some q →
        durationOf p = specNormalizeDuration q) := by
  refine ⟨?_, ?_, ?_, ?_, ?_, ?_⟩
  · intro p s h hs hc
    unfold durationOf
    rw [h]
    exact formatDuration_ds3 _ s hs hc
  · intro p d h hd
    have ht : jsTruthy ((generalOf p).bind RawTrack.Duration) = true := by
      rw [h]
      simp [jsTruthy, bne_iff_ne, hd]
    simp only [rawDurationOf]
    rw [jsOr_truthy _ _ ht, h]
    rw [if_pos (by simp [jsTruthy, bne_iff_ne, hd])]
    simp
  · intro p d hg h hd
    have ht : jsTruthy ((videoOf p).bind RawTrack.Duration) = true := by
      rw [h]
      simp [jsTruthy, bne_iff_ne, hd]
    simp only [rawDurationOf]
    rw [jsOr_falsy _ _ hg, jsOr_truthy _ _ ht, h]
    rw [if_pos (by simp [jsTruthy, bne_iff_ne, hd])]
    simp
  · intro p d hg hv h hd
    simp only [rawDurationOf]
    rw [jsOr_falsy _ _ hg, jsOr_falsy _ _ hv, h]
    rw [if_pos (by simp [jsTruthy, bne_iff_ne, hd])]
    simp
  · intro p hg hv ha
    simp only [rawDurationOf]
    rw [jsOr_falsy _ _ hg, jsOr_falsy _ _ hv, ha]
    simp
  · intro p q hds htr hnum
    unfold durationOf
    exact formatDuration_spec _ q _ hds htr hnum

/-- C3 counterexample: in probeShadowDs3 a colon-containing preformatted
duration string is available on the Video track, yet the truthy colon-free
General string is selected, so the result comes from the raw numeric path. -/
theorem claim_C3_cex :
    ((probeShadowDs3.media.map MediaData.track).getD []).any
        (fun t => t.Duration_String3 == some "00:01:00") = true
    ∧ durationOf probeShadowDs3 = "1:00"
    ∧ ("1:00" : String) ≠ "00:01:00" := by
  refine ⟨by decide, ?_, by decide⟩
  have h1 : ds3Of probeShadowDs3 = some "about" := by decide
  have h2 : rawDurationOf probeShadowDs3 = .str "60.000" := by decide
  unfold durationOf
  rw [h1, h2]
  rw [formatDuration_spec _ 60 _ (by decide) (str_truthy _ (by decide))
    (by simp only [JsDur.toNum]; exact parseFloat_sixty)]
  rw [specNormalizeDuration_eval 60 0 60 (by norm_num) (floorQ _ _ (by norm_num) (by norm_num))
    (by rw [if_pos rfl]; exact floorQ _ _ (by norm_num) (by norm_num))]
  decide

/-- C3 witness: a canonical colon-containing preformatted string is truncated
at the dot, through the theorem itself. -/
theorem claim_C3_witness : durationOf probeDs3Canonical = "00:02:15" := by
  have h := claim_C3.1 probeDs3Canonical "00:02:15.500" (by decide) (by decide) (by decide)
  rw [h]
  decide

/-- C1: assembly fails with the no-media-track error exactly when the probe
yields neither a General nor a Video track; an audio-only probe fails, and a
General-only probe succeeds with every video-specific field resolving to the
unknown sentinel. -/
theorem claim_C1 :
    (∀ name date : String, ∀ sz : ℕ, ∀ p : ProbeResult,
        analyzeVideo name date sz p = none ↔ (generalOf p = none ∧ videoOf p = none))
    ∧ analyzeVideo "a.mp4" "x" 0 probeAudioOnly = none
    ∧ (∀ name date : String, ∀ sz : ℕ, ∀ p : ProbeResult,
        videoOf p = none → (generalOf p).isSome = true →
        ∃ md : VideoMetadata, analyzeVideo name date sz p = some md
          ∧ md.resolution = "不明" ∧ md.resolutionLabel = "不明"
          ∧ md.frameRate = "不明" ∧ md.videoCodec = "不明") := by
  refine ⟨?_, by decide, ?_⟩
  · intro name date sz p
    cases hg : generalOf p <;> cases hv : videoOf p <;> simp [analyzeVideo, hg, hv]
  · intro name date sz p hv hg
    unfold analyzeVideo
    rw [if_pos (Or.inr hg)]
    exact ⟨_, rfl, by simp [resolutionOf, widthOf, heightOf, hv],
      by simp [resolutionLabelOf, widthOf, heightOf, hv],
      by simp [frameRateOf, hv], by simp [getDetailedCodec, hv]⟩

/-- C1 witness: the failure direction of the equivalence applied to the
audio-only probe. -/
theorem claim_C1_witness : analyzeVideo "b.mp4" "y" 3 probeAudioOnly = none :=
  (claim_C1.1 "b.mp4" "y" 3 probeAudioOnly).mpr (by decide)

theorem append_fps_ne_unknown (a : String) : a ++ " fps" ≠ "不明" := by
  intro h
  have hl := congrArg String.length h
  rw [String.length_append] at hl
  have h4 : (" fps" : String).length = 4 := by decide
  have h2 : ("不明" : String).length = 2 := by decide
  omega

/-- C10: a Video track with neither frame-rate field yields the unknown
sentinel with the fps unit suffix, and the bare sentinel arises exactly when
no Video track exists. -/
theorem claim_C10 :
    (∀ p : ProbeResult, ∀ v : RawTrack, videoOf p = some v →
        v.FrameRate = none → v.FrameRate_Nominal = none → frameRateOf p = "不明 fps")
    ∧ (∀ p : ProbeResult, videoOf p = none → frameRateOf p = "不明")
    ∧ (∀ p : ProbeResult, ∀ v : RawTrack, videoOf p = some v → frameRateOf p ≠ "不明") := by
  refine ⟨?_, ?_, ?_⟩
  · intro p v hp h1 h2
    simp [frameRateOf, hp, h1, h2]
  · intro p hp
    simp [frameRateOf, hp]
  · intro p v hp
    have h : frameRateOf p =
        (match v.FrameRate with
          | some s => s
          | none => v.FrameRate_Nominal.getD "不明") ++ " fps" := by
      simp [frameRateOf, hp]
    rw [h]
    exact append_fps_ne_unknown _

/-- C10 witness: a bare Video track through the theorem itself. -/
theorem claim_C10_witness : frameRateOf probeVideoBare = "不明 fps" :=
  claim_C10.1 probeVideoBare { typ := "Video" } (by decide) rfl rfl

theorem codecFallback_of_ne (r : String) (c : Option String) (h : r ≠ "") :
    codecFallback r c = r := by
  unfold codecFallback
  rw [if_pos h]

theorem codec_profile_glue (base pr : String) (hb : base ≠ "") :
    codecFallback
        (if pr ≠ "" ∧ pr ≠ "Base" ∧ pr ≠ "Main" ∧ strIncludes base pr = false
          then base ++ " [" ++ pr ++ "]" else base) none
      = (if pr ≠ "" ∧ pr ≠ "Base" ∧ pr ≠ "Main" ∧ strIncludes base pr = false
          then base ++ " [" ++ pr ++ "]" else base) := by
  apply codecFallback_of_ne
  split_ifs with h
  · exact append_ne_empty_right _ _ (by decide)
  · exact hb

/-- C5: the four known short codes map to their canonical name pairs, rendered
long name with short name in full-width parentheses, with the profile appended
in brackets exactly when truthy, neither Base nor Main, and not already a
substring of the composed name; in particular AVC with High profile and AVC
with the suppressed Main profile render as the claim states. -/
theorem claim_C5 :
    (∀ pr : String,
        getDetailedCodec (some { typ := "Video", Format := some "AVC", Format_Profile := some pr })
          = specCodecDisplay "Advanced Video Coding" "H.264" pr)
    ∧ (∀ pr : String,
        getDetailedCodec (some { typ := "Video", Format := some "HEVC", Format_Profile := some pr })
          = specCodecDisplay "High Efficiency Video Coding" "H.265" pr)
    ∧ (∀ pr : String,
        getDetailedCodec
            (some { typ := "Video", Format := some "MPEG-4 Visual", Format_Profile := some pr })
          = specCodecDisplay "MPEG-4 Part 2" "Visual" pr)
    ∧ (∀ pr : String,
        getDetailedCodec (some { typ := "Audio", Format := some "AAC", Format_Profile := some pr })
          = specCodecDisplay "Advanced Audio Coding" "MPEG-4 AAC" pr)
    ∧ getDetailedCodec (some { typ := "Video", Format := some "AVC", Format_Profile := some "High" })
        = "Advanced Video Coding（H.264） [High]"
    ∧ getDetailedCodec (some { typ := "Video", Format := some "AVC", Format_Profile := some "Main" })
        = "Advanced Video Coding（H.264）" := by
  refine ⟨?_, ?_, ?_, ?_, by decide, by decide⟩
  · intro pr
    rw [show getDetailedCodec
          (some { typ := "Video", Format := some "AVC", Format_Profile := some pr })
        = codecFallback
            (if pr ≠ "" ∧ pr ≠ "Base" ∧ pr ≠ "Main" ∧
                strIncludes ("Advanced Video Coding" ++ "（" ++ "H.264" ++ "）") pr = false
              then ("Advanced Video Coding" ++ "（" ++ "H.264" ++ "）") ++ " [" ++ pr ++ "]"
              else "Advanced Video Coding" ++ "（" ++ "H.264" ++ "）") none from rfl]
    rw [codec_profile_glue _ pr (by decide)]
    rfl
  · intro pr
    rw [show getDetailedCodec
          (some { typ := "Video", Format := some "HEVC", Format_Profile := some pr })
        = codecFallback
            (if pr ≠ "" ∧ pr ≠ "Base" ∧ pr ≠ "Main" ∧
                strIncludes ("High Efficiency Video Coding" ++ "（" ++ "H.265" ++ "）") pr = false
              then ("High Efficiency Video Coding" ++ "（" ++ "H.265" ++ "）") ++ " [" ++ pr ++ "]"
              else "High Efficiency Video Coding" ++ "（" ++ "H.265" ++ "）") none from rfl]
    rw [codec_profile_glue _ pr (by decide)]
    rfl
  · intro pr
    rw [show getDetailedCodec
          (some { typ := "Video", Format := some "MPEG-4 Visual", Format_Profile := some pr })
        = codecFallback
            (if pr ≠ "" ∧ pr ≠ "Base" ∧ pr ≠ "Main" ∧
                strIncludes ("MPEG-4 Part 2" ++ "（" ++ "Visual" ++ "）") pr = false
              then ("MPEG-4 Part 2" ++ "（" ++ "Visual" ++ "）") ++ " [" ++ pr ++ "]"
              else "MPEG-4 Part 2" ++ "（" ++ "Visual" ++ "）") none from rfl]
    rw [codec_profile_glue _ pr (by decide)]
    rfl
  · intro pr
    rw [show getDetailedCodec
          (some { typ := "Audio", Format := some "AAC", Format_Profile := some pr })
        = codecFallback
            (if pr ≠ "" ∧ pr ≠ "Base" ∧ pr ≠ "Main" ∧
                strIncludes ("Advanced Audio Coding" ++ "（" ++ "MPEG-4 AAC" ++ "）") pr = false
              then ("Advanced Audio Coding" ++ "（" ++ "MPEG-4 AAC" ++ "）") ++ " [" ++ pr ++ "]"
              else "Advanced Audio Coding" ++ "（" ++ "MPEG-4 AAC" ++ "）") none from rfl]
    rw [codec_profile_glue _ pr (by decide)]
    rfl

/-- C6 counterexample: a track with the unmapped non-empty format code XYZ and
no format information returns the code itself, not the raw codec
identifier. -/
theorem claim_C6_cex :
    getDetailedCodec (some { typ := "Video", Format := some "XYZ", CodecID := some "xyz1" }) = "XYZ"
    ∧ ("XYZ" : String) ≠ "xyz1" := by
  constructor
  · decide
  · decide

/-- C6 (amended): the raw codec identifier is returned only when both the
format code and the format information are absent or empty (and no profile
suffix was appended), falling back to the unknown sentinel when the identifier
too is absent or empty; a track with a non-empty unmapped format code returns
that code itself. -/
theorem claim_C6 :
    (∀ cid : String, cid ≠ "" →
        getDetailedCodec (some { typ := "Audio", CodecID := some cid }) = cid)
    ∧ getDetailedCodec (some { typ := "Audio" }) = "不明"
    ∧ getDetailedCodec (some { typ := "Audio", CodecID := some "" }) = "不明"
    ∧ (∀ fmt cid : String, fmt ≠ "" → fmt ≠ "AVC" → fmt ≠ "HEVC" → fmt ≠ "MPEG-4 Visual" →
        fmt ≠ "AAC" →
        getDetailedCodec (some { typ := "Audio", Format := some fmt, CodecID := some cid })
          = fmt) := by
  refine ⟨?_, by decide, by decide, ?_⟩
  · intro cid h
    have h1 : getDetailedCodec (some { typ := "Audio", CodecID := some cid })
        = codecFallback "" (some cid) := rfl
    rw [h1]
    unfold codecFallback
    rw [if_neg (by simp), if_pos (by simp [jsTruthy, bne_iff_ne, h])]
    rfl
  · intro fmt cid h0 h1 h2 h3 h4
    simp [getDetailedCodec, codecFallback, jsTruthy, h0, h1, h2, h3, h4]

/-- C6 witness: a concrete raw codec identifier through the theorem itself. -/
theorem claim_C6_witness :
    getDetailedCodec (some { typ := "Audio", CodecID := some "mp4a-40-2" }) = "mp4a-40-2" :=
  claim_C6.1 "mp4a-40-2" (by decide)

theorem formatBytes_eval (b : ℕ) (hb : b ≠ 0) (i : ℕ) (hlog : Nat.log 1024 b = i) (n : ℕ)
    (hfl : ⌊((b : ℚ) / (1024 : ℚ) ^ i) * 100 + 1 / 2⌋ = (n : ℤ)) :
    formatBytes b =
      trimFixed (toString (n / 100) ++ "." ++
        (if n % 100 < 10 then "0" ++ toString (n % 100) else toString (n % 100))) ++
      " " ++ sizesGet i := by
  simp only [formatBytes, jsToFixed2]
  rw [if_neg hb, hlog, hfl, if_neg (not_lt.mpr (Int.natCast_nonneg n))]
  simp [Int.natAbs_ofNat, String.empty_append]

/-- C7 counterexample: one full base-1024 step past the TB range the unit
read is out of bounds, so the rendered unit is the text undefined rather than
a clamped TB. -/
theorem claim_C7_cex :
    formatBytes (1024 ^ 5) = "1 undefined"
    ∧ formatBytes (1024 ^ 5) ≠ "1024 TB"
    ∧ formatBytes (1024 ^ 5) ≠ "1 PB" := by
  have h := formatBytes_eval (1024 ^ 5) (by norm_num) 5
    (Nat.log_eq_of_pow_le_of_lt_pow (by norm_num) (by norm_num)) 100
    (floorQ _ _ (by push_cast; norm_num) (by push_cast; norm_num))
  rw [h]
  exact ⟨by decide, by decide, by decide⟩

/-- C7 (amended): the unit index is not clamped; for every byte count whose
base-1024 magnitude reaches past the TB slot the formatted value is still
produced but its unit renders as the out-of-bounds text undefined. -/
theorem claim_C7 : ∀ b : ℕ, 1024 ^ 5 ≤ b →
    formatBytes b =
      trimFixed (jsToFixed2 ((b : ℚ) / (1024 : ℚ) ^ Nat.log 1024 b)) ++ " " ++ "undefined" := by
  intro b hb
  have hb0 : b ≠ 0 := by
    intro h
    rw [h] at hb
    norm_num at hb
  have hlog : 5 ≤ Nat.log 1024 b := (Nat.pow_le_iff_le_log (by norm_num) hb0).mp hb
  have hlen : sizes.length ≤ Nat.log 1024 b := by
    simp only [sizes, List.length]
    omega
  have hsz : sizesGet (Nat.log 1024 b) = "undefined" := by
    unfold sizesGet
    rw [List.get?_eq_none.mpr hlen]
    rfl
  simp only [formatBytes]
  rw [if_neg hb0, hsz]

/-- C7 witness: the amended statement at the first out-of-range power. -/
theorem claim_C7_witness :
    formatBytes (1024 ^ 5) =
      trimFixed (jsToFixed2 (((1024 ^ 5 : ℕ) : ℚ) / (1024 : ℚ) ^ Nat.log 1024 (1024 ^ 5)))
        ++ " " ++ "undefined" :=
  claim_C7 (1024 ^ 5) (le_refl _)

/-- C8: zero bytes render as the literal 0 Bytes; positive byte counts within
the defined units are scaled by the base-1024 unit at index equal to the
base-1024 logarithm and rendered with the toFixed output trimmed of trailing
fraction zeros, so 1536 gives 1.5 KB and 1099511627776 gives 1 TB. -/
theorem claim_C8 :
    formatBytes 0 = "0 Bytes"
    ∧ formatBytes 1536 = "1.5 KB"
    ∧ formatBytes 1099511627776 = "1 TB"
    ∧ (∀ b : ℕ, 0 < b → b < 1024 ^ 5 →
        formatBytes b =
          trimFixed (jsToFixed2 ((b : ℚ) / (1024 : ℚ) ^ Nat.log 1024 b)) ++ " " ++
            sizes.getD (Nat.log 1024 b) "") := by
  refine ⟨by decide, ?_, ?_, ?_⟩
  · have h := formatBytes_eval 1536 (by norm_num) 1
      (Nat.log_eq_of_pow_le_of_lt_pow (by norm_num) (by norm_num)) 150
      (floorQ _ _ (by push_cast; norm_num) (by push_cast; norm_num))
    rw [h]
    decide
  · have h := formatBytes_eval 1099511627776 (by norm_num) 4
      (Nat.log_eq_of_pow_le_of_lt_pow (by norm_num) (by norm_num)) 100
      (floorQ _ _ (by push_cast; norm_num) (by push_cast; norm_num))
    rw [h]
    decide
  · intro b hb0 hb5
    have hlt : Nat.log 1024 b < 5 := Nat.log_lt_of_lt_pow (by omega) hb5
    have hge : sizesGet (Nat.log 1024 b) = sizes.getD (Nat.log 1024 b) "" := by
      interval_cases h : Nat.log 1024 b <;> rfl
    simp only [formatBytes]
    rw [if_neg (by omega), hge]

/-- C8 witness: the general unit-selection clause at 1536 bytes. -/
theorem claim_C8_witness :
    formatBytes 1536 =
      trimFixed (jsToFixed2 (((1536 : ℕ) : ℚ) / (1024 : ℚ) ^ Nat.log 1024 1536)) ++ " " ++
        sizes.getD (Nat.log 1024 1536) "" :=
  claim_C8.2.2.2 1536 (by norm_num) (by norm_num)

theorem res_unknown (p : ProbeResult)
    (hp : widthOf p = some 0 ∨ widthOf p = none ∨ heightOf p = some 0 ∨ heightOf p = none) :
    resolutionOf p = "不明" := by
  unfold resolutionOf
  rcases hw : widthOf p with _ | w
  · rfl
  · rcases hh : heightOf p with _ | h2
    · rfl
    · rw [hw, hh] at hp
      simp only [Option.some.injEq, reduceCtorEq, or_false, false_or] at hp
      dsimp only
      rw [if_neg (by tauto)]

theorem resLabel_unknown (p : ProbeResult)
    (hp : widthOf p = some 0 ∨ widthOf p = none ∨ heightOf p = some 0 ∨ heightOf p = none) :
    resolutionLabelOf p = "不明" := by
  unfold resolutionLabelOf
  rcases hw : widthOf p with _ | w
  · rfl
  · rcases hh : heightOf p with _ | h2
    · rfl
    · rw [hw, hh] at hp
      simp only [Option.some.injEq, reduceCtorEq, or_false, false_or] at hp
      dsimp only
      rw [if_neg (by tauto)]

/-- C9: the resolution class is bucketed on the long edge with thresholds
3840, 2560, 1920 and 1280, first match winning; a zero or unparseable width or
height makes both the class and the resolution string the unknown sentinel,
and the stated concrete classifications hold. -/
theorem claim_C9 :
    (∀ w h : ℤ,
        (3840 ≤ max w h → getResolutionLabel w h = "4K")
        ∧ (2560 ≤ max w h → max w h < 3840 → getResolutionLabel w h = "2K")
        ∧ (1920 ≤ max w h → max w h < 2560 → getResolutionLabel w h = "FullHD")
        ∧ (1280 ≤ max w h → max w h < 1920 → getResolutionLabel w h = "HD")
        ∧ (max w h < 1280 → getResolutionLabel w h = "SD"))
    ∧ (∀ p : ProbeResult,
        widthOf p = some 0 ∨ widthOf p = none ∨ heightOf p = some 0 ∨ heightOf p = none →
        resolutionOf p = "不明" ∧ resolutionLabelOf p = "不明")
    ∧ getResolutionLabel 3840 2160 = "4K"
    ∧ getResolutionLabel 1280 720 = "HD"
    ∧ resolutionLabelOf probeZeroRes = "不明"
    ∧ resolutionOf probeZeroRes = "不明" := by
  refine ⟨?_, fun p hp => ⟨res_unknown p hp, resLabel_unknown p hp⟩,
    by decide, by decide, by decide, by decide⟩
  intro w h
  refine ⟨fun h1 => ?_, fun h1 h2 => ?_, fun h1 h2 => ?_, fun h1 h2 => ?_, fun h1 => ?_⟩ <;>
    simp only [getResolutionLabel] <;> split_ifs <;> first | rfl | omega

/-- C9 witness: a concrete 2K classification and an unparseable width through
the theorem itself. -/
theorem claim_C9_witness :
    getResolutionLabel 2560 1440 = "2K" ∧ resolutionOf probeVideoBare = "不明" :=
  ⟨(claim_C9.1 2560 1440).2.1 (by norm_num) (by norm_num),
    (claim_C9.2.1 probeVideoBare (Or.inr (Or.inl (by decide)))).1⟩

theorem jsTruthy_getD_ne (c : Option String) (h : jsTruthy c = true) : c.getD "" ≠ "" := by
  cases c with
  | none => simp [jsTruthy] at h
  | some s => simpa [jsTruthy, bne_iff_ne] using h

theorem jsSel_ne_empty (c : Option String) (d : String) (hd : d ≠ "") : jsSel c d ≠ "" := by
  unfold jsSel
  split_ifs with h
  · exact jsTruthy_getD_ne c h
  · exact hd

theorem formatBytes_ne_empty (b : ℕ) : formatBytes b ≠ "" := by
  unfold formatBytes
  split_ifs with h
  · decide
  · exact append_ne_empty_left _ _ (append_ne_empty_right _ _ (by decide))

theorem resolution_ne_empty (p : ProbeResult) : resolutionOf p ≠ "" := by
  unfold resolutionOf
  rcases widthOf p with _ | w <;> rcases heightOf p with _ | h2 <;> dsimp only
  · decide
  · decide
  · decide
  · split_ifs with h
    · exact append_ne_empty_left _ _ (append_ne_empty_right _ _ (by decide))
    · decide

theorem resLabel_ne_empty (p : ProbeResult) : resolutionLabelOf p ≠ "" := by
  unfold resolutionLabelOf
  rcases widthOf p with _ | w <;> rcases heightOf p with _ | h2 <;> dsimp only
  · decide
  · decide
  · decide
  · split_ifs with h
    · simp only [getResolutionLabel]
      split_ifs <;> decide
    · decide

theorem bitRate_ne_empty (p : ProbeResult) : bitRateOf p ≠ "" := by
  unfold bitRateOf
  split_ifs <;> first | exact append_ne_empty_right _ _ (by decide) | decide

theorem frameRate_ne_empty (p : ProbeResult) : frameRateOf p ≠ "" := by
  unfold frameRateOf
  rcases videoOf p with _ | v <;> dsimp only
  · decide
  · exact append_ne_empty_right _ _ (by decide)

theorem codecFallback_ne_empty (r : String) (c : Option String) : codecFallback r c ≠ "" := by
  unfold codecFallback
  split_ifs with h1 h2
  · exact h1
  · exact jsTruthy_getD_ne c h2
  · decide

theorem getDetailedCodec_ne_empty (t : Option RawTrack) : getDetailedCodec t ≠ "" := by
  cases t with
  | none => decide
  | some track =>
    simp only [getDetailedCodec]
    exact codecFallback_ne_empty _ _

theorem render_ne_empty (ts : ℤ) : formatDurationRender ts ≠ "" := by
  simp only [formatDurationRender]
  apply append_ne_empty_left
  apply append_ne_empty_right
  split_ifs <;> exact append_ne_empty_right _ _ (by decide)

theorem data_nil (s : String) (h : s.data = []) : s = "" := by
  cases s with
  | mk l =>
    cases h
    rfl

theorem mk_cons_ne_empty (c : Char) (l : List Char) : String.mk (c :: l) ≠ "" := by
  intro h
  exact absurd (congrArg String.data h) (by simp)

theorem formatDuration_ne_empty (v : JsDur) (ds3 : Option String)
    (hds : ∀ s : String, ds3 = some s → s.data.head? ≠ some '.') :
    formatDuration v ds3 ≠ "" := by
  unfold formatDuration
  split_ifs with h1 h2
  · cases ds3 with
    | none => simp [jsTruthy] at h1
    | some s =>
      have hs : s ≠ "" := by simpa [jsTruthy, bne_iff_ne] using h1.1
      rcases hd : s.data with _ | ⟨c, cs⟩
      · exact absurd (data_nil s hd) hs
      · have hc : c ≠ '.' := by
          have hh := hds s rfl
          rw [hd] at hh
          simpa using hh
        simp only [Option.getD]
        rw [hd, List.takeWhile_cons, if_pos (by simpa [bne_iff_ne] using hc)]
        exact mk_cons_ne_empty _ _
  · decide
  · cases htn : v.toNum with
    | none => dsimp only; decide
    | some num =>
      dsimp only
      split_ifs <;> first | decide | exact render_ne_empty _

/-- C2 counterexample: on a probe whose General track carries the preformatted
duration string .0:0 the assembly succeeds but the duration field of the
produced record is the empty string. -/
theorem claim_C2_cex :
    (analyzeVideo "v.mp4" "x" 0 probeDotDs3).map VideoMetadata.duration = some ""
    ∧ analyzeVideo "v.mp4" "x" 0 probeDotDs3 ≠ none := by
  constructor
  · decide
  · decide

/-- C2 (amended): whenever assembly succeeds, every field of the produced
record is a non-empty string, provided the pass-through file name and date are
non-empty and the selected preformatted duration string, when one is present,
does not begin with the fractional separator. -/
theorem claim_C2 : ∀ name date : String, ∀ sz : ℕ, ∀ p : ProbeResult, ∀ md : VideoMetadata,
    analyzeVideo name date sz p = some md → name ≠ "" → date ≠ "" →
    (∀ s : String, ds3Of p = some s → s.data.head? ≠ some '.') →
    md.name ≠ "" ∧ md.updatedDate ≠ "" ∧ md.size ≠ "" ∧ md.resolution ≠ ""
    ∧ md.resolutionLabel ≠ "" ∧ md.bitRate ≠ "" ∧ md.bitRateMode ≠ ""
    ∧ md.frameRate ≠ "" ∧ md.duration ≠ "" ∧ md.container ≠ ""
    ∧ md.videoCodec ≠ "" ∧ md.audioCodec ≠ "" := by
  intro name date sz p md hmd hname hdate hds3
  unfold analyzeVideo at hmd
  split at hmd
  · have hrec := Option.some.inj hmd
    subst hrec
    exact ⟨hname, hdate, formatBytes_ne_empty sz, resolution_ne_empty p,
      resLabel_ne_empty p, bitRate_ne_empty p, jsSel_ne_empty _ _ (by decide),
      frameRate_ne_empty p, formatDuration_ne_empty _ _ hds3,
      jsSel_ne_empty _ _ (by decide), getDetailedCodec_ne_empty _,
      getDetailedCodec_ne_empty _⟩
  · exact Option.noConfusion hmd

/-- C2 witness: the amended statement on the General-only probe, through the
theorem itself. -/
theorem claim_C2_witness :
    analyzeVideo "a.mp4" "x" 0 probeGeneralOnly = some mdGeneralOnly
    ∧ (mdGeneralOnly.name ≠ "" ∧ mdGeneralOnly.updatedDate ≠ "" ∧ mdGeneralOnly.size ≠ ""
      ∧ mdGeneralOnly.resolution ≠ "" ∧ mdGeneralOnly.resolutionLabel ≠ ""
      ∧ mdGeneralOnly.bitRate ≠ "" ∧ mdGeneralOnly.bitRateMode ≠ ""
      ∧ mdGeneralOnly.frameRate ≠ "" ∧ mdGeneralOnly.duration ≠ ""
      ∧ mdGeneralOnly.container ≠ "" ∧ mdGeneralOnly.videoCodec ≠ ""
      ∧ mdGeneralOnly.audioCodec ≠ "") :=
  ⟨by decide,
    claim_C2 "a.mp4" "x" 0 probeGeneralOnly mdGeneralOnly (by decide) (by decide) (by decide)
      (fun s hs => by
        rw [show ds3Of probeGeneralOnly = none from by decide] at hs
        exact Option.noConfusion hs)⟩

end CheckMeta
